import Mathlib

/-!
Verification of the node-hubspot client library
(`lib/hubspot/hubspot.js`, `lib/hubspot/helpers.js`).

The development shallowly embeds the request-execution pipeline:

* a model of JavaScript JSON values (`Json`) and of general JS values as
  they occur in this code (`JsVal`: `undefined`, a JSON value, or a
  `Buffer`), together with JS truthiness and property access;
* a model of the built-in `JSON.parse` on the fragment of JSON this
  library exchanges (literals, integers, strings with simple escapes,
  arrays, objects);
* `helpers.isAnError` and `helpers.createHubspotError`, including the
  HTML `<body>` extraction and tag stripping done on unparsable string
  bodies, and the *unguarded* `JSON.parse` on `Buffer` bodies;
* `processResponseBody`, the response dispatch of `hubspot.js`;
* the synchronous request-construction phase of
  `hubspotAPI.prototype.execute` (verb extraction, parameter
  whitelisting, authentication application, the `POST` branch that
  reads the undeclared variable `authParams`);
* the constructor `hubspotAPI(options)`;
* the OAuth refresh-and-retry flow, which is part of this repository
  but not present under `src/` (only its test is); it is modelled from
  the specification as a small state machine.

Exceptions that escape the JS code are modelled with `Except`.
-/

namespace Hubspot

/-- A JavaScript JSON value.  JS numbers are modelled as integers: the
bodies this library exchanges (and every input the claims are evaluated
at) use only integral numbers. -/
inductive Json where
  | null : Json
  | bool (b : Bool) : Json
  | num (n : Int) : Json
  | str (s : String) : Json
  | arr (elems : List Json) : Json
  | obj (fields : List (String × Json)) : Json

/-- JS truthiness of a JSON value (`null`, `false`, `0`, `""` are falsy). -/
def jsonTruthy : Json → Bool
  | .null => false
  | .bool b => b
  | .num n => n != 0
  | .str s => s != ""
  | .arr _ => true
  | .obj _ => true

/-- A JS value as this code manipulates them: `undefined`, a JSON value,
or a `Buffer` (carrying its decoded string content). -/
inductive JsVal where
  | undefined : JsVal
  | json (j : Json) : JsVal
  | buffer (s : String) : JsVal

/-- JS truthiness of a `JsVal` (`undefined` is falsy, a `Buffer` is a
truthy object). -/
def jsvalTruthy : JsVal → Bool
  | .undefined => false
  | .json j => jsonTruthy j
  | .buffer _ => true

/-- JS `a && b`. -/
def jsAnd (a b : JsVal) : JsVal :=
  if jsvalTruthy a then b else a

/-- JS `a || b`. -/
def jsOr (a b : JsVal) : JsVal :=
  if jsvalTruthy a then a else b

/-- Lookup in a string-keyed association list (a JS object's own
properties, in insertion order). -/
def lookupKV {α : Type} : List (String × α) → String → Option α
  | [], _ => none
  | (k', v) :: rest, k => if k' = k then some v else lookupKV rest k

/-- JS property assignment `o[k] = v`: replace the binding if the key is
present, append it otherwise. -/
def setField : List (String × Json) → String → Json → List (String × Json)
  | [], k, v => [(k, v)]
  | (k', v') :: rest, k, v =>
    if k' = k then (k, v) :: rest else (k', v') :: setField rest k v

/-- Property access `v.k` on a JS value that is known not to throw
(every use in the source is guarded by `&&`, so the receiver is truthy
there; access on a non-object yields `undefined`). -/
def jsGet (v : JsVal) (k : String) : JsVal :=
  match v with
  | .json (.obj fields) =>
    match lookupKV fields k with
    | some w => .json w
    | none => .undefined
  | _ => .undefined

/-- A JS exception, by kind.  Engine-dependent message texts are not
modelled. -/
inductive JsException where
  | syntaxError : JsException
  | typeError : JsException
  | referenceError : JsException

/-- Unguarded property access `v.k`: throws a `TypeError` when the
receiver is `null` (this is what `parsedResponse.status` does in
`processResponseBody` when the body parses to JSON `null`). -/
def jsMember (j : Json) (k : String) : Except JsException JsVal :=
  match j with
  | .null => .error .typeError
  | .obj fields =>
    .ok (match lookupKV fields k with
         | some w => .json w
         | none => .undefined)
  | _ => .ok .undefined

/-! ### A model of the built-in `JSON.parse`

`JSON.parse` is a JS builtin, not code of this repository; it is
modelled here on the representative fragment used by this library:
`null`, `true`, `false`, integers, strings with single-character
escapes, arrays and objects.  Floats, exponents and `\uXXXX` escapes
are not modelled; every concrete input in this development stays inside
the fragment. -/

/-- Skip JSON whitespace. -/
def skipWs : List Char → List Char
  | c :: rest =>
    if c = ' ' ∨ c = '\t' ∨ c = '\n' ∨ c = '\r' then skipWs rest else c :: rest
  | [] => []

/-- Decode a single-character string escape (`\n`, `\t`, `\r`; every
other escaped character stands for itself, covering `\"`, `\\`, `\/`). -/
def escChar (c : Char) : Char :=
  match c with
  | 'n' => '\n'
  | 't' => '\t'
  | 'r' => '\r'
  | c => c

/-- Parse the remainder of a JSON string literal (the opening quote has
been consumed); return its characters and the rest of the input. -/
def parseStrChars : List Char → Option (List Char × List Char)
  | [] => none
  | '"' :: rest => some ([], rest)
  | '\\' :: c :: rest =>
    (parseStrChars rest).map (fun p => (escChar c :: p.1, p.2))
  | c :: rest =>
    (parseStrChars rest).map (fun p => (c :: p.1, p.2))

/-- Accumulate decimal digits. -/
def parseDigitsAux : List Char → Nat → Nat × List Char
  | c :: rest, acc =>
    if c.isDigit then parseDigitsAux rest (acc * 10 + (c.toNat - 48))
    else (acc, c :: rest)
  | [], acc => (acc, [])

/-- Parse one or more decimal digits. -/
def parseDigits : List Char → Option (Nat × List Char)
  | c :: rest =>
    if c.isDigit then some (parseDigitsAux rest (c.toNat - 48)) else none
  | [] => none

mutual

/-- Parse a JSON value (fuel-driven recursive descent). -/
def parseJsonVal : Nat → List Char → Option (Json × List Char)
  | 0, _ => none
  | fuel + 1, cs =>
    match skipWs cs with
    | 'n' :: 'u' :: 'l' :: 'l' :: rest => some (Json.null, rest)
    | 't' :: 'r' :: 'u' :: 'e' :: rest => some (Json.bool true, rest)
    | 'f' :: 'a' :: 'l' :: 's' :: 'e' :: rest => some (Json.bool false, rest)
    | '"' :: rest =>
      (parseStrChars rest).map (fun p => (Json.str (String.mk p.1), p.2))
    | '[' :: rest =>
      (match skipWs rest with
       | ']' :: rest2 => some (Json.arr [], rest2)
       | cs2 => (parseArrElems fuel cs2).map (fun p => (Json.arr p.1, p.2)))
    | '\x7b' :: rest =>
      (match skipWs rest with
       | '\x7d' :: rest2 => some (Json.obj [], rest2)
       | cs2 => (parseObjFields fuel cs2).map (fun p => (Json.obj p.1, p.2)))
    | '-' :: rest =>
      (parseDigits rest).map (fun p => (Json.num (-(p.1 : Int)), p.2))
    | c :: rest =>
      if c.isDigit then
        (parseDigits (c :: rest)).map (fun p => (Json.num (p.1 : Int), p.2))
      else none
    | [] => none

/-- Parse the comma-separated elements of a non-empty array, up to and
including the closing bracket. -/
def parseArrElems : Nat → List Char → Option (List Json × List Char)
  | 0, _ => none
  | fuel + 1, cs =>
    match parseJsonVal fuel cs with
    | none => none
    | some (j, rest) =>
      match skipWs rest with
      | ',' :: rest2 => (parseArrElems fuel rest2).map (fun p => (j :: p.1, p.2))
      | ']' :: rest2 => some ([j], rest2)
      | _ => none

/-- Parse the comma-separated members of a non-empty object, up to and
including the closing brace. -/
def parseObjFields : Nat → List Char → Option (List (String × Json) × List Char)
  | 0, _ => none
  | fuel + 1, cs =>
    match skipWs cs with
    | '"' :: rest =>
      (match parseStrChars rest with
       | none => none
       | some (kcs, rest2) =>
         match skipWs rest2 with
         | ':' :: rest3 =>
           (match parseJsonVal fuel rest3 with
            | none => none
            | some (v, rest4) =>
              match skipWs rest4 with
              | ',' :: rest5 =>
                (parseObjFields fuel rest5).map
                  (fun p => ((String.mk kcs, v) :: p.1, p.2))
              | '\x7d' :: rest5 => some ([(String.mk kcs, v)], rest5)
              | _ => none)
         | _ => none)
    | _ => none

end

/-- Model of `JSON.parse`: parse the whole string, requiring nothing but
whitespace after the value; `none` models a thrown `SyntaxError`. -/
def jsonParse (s : String) : Option Json :=
  match parseJsonVal (s.length + 1) s.toList with
  | some (j, rest) =>
    (match skipWs rest with
     | [] => some j
     | _ => none)
  | none => none

/-! ### `helpers.js` -/

/-- `helpers.isAnError`: `parseInt(statusCode / 100, 10) !== 2`.
`parseInt` truncation on a non-negative number agrees with natural
division. -/
def isAnError (statusCode : Nat) : Bool :=
  decide (statusCode / 100 ≠ 2)

/-- Case-insensitive literal match: if `input` starts with `pat`
(lower-case pattern), return the remainder. -/
def matchCI : List Char → List Char → Option (List Char)
  | [], cs => some cs
  | p :: ps, c :: cs => if c.toLower = p then matchCI ps cs else none
  | _ :: _, [] => none

/-- `<body>` as characters. -/
def openBodyPat : List Char := ['<', 'b', 'o', 'd', 'y', '>']

/-- `</body>` as characters. -/
def closeBodyPat : List Char := ['<', '/', 'b', 'o', 'd', 'y', '>']

/-- Characters up to and including the first case-insensitive `</body>`
(original case preserved), or `none` when there is no closing tag. -/
def takeThroughCloseBody : List Char → Option (List Char)
  | [] => none
  | c :: rest =>
    if (matchCI closeBodyPat (c :: rest)).isSome then
      some (List.take 7 (c :: rest))
    else
      (takeThroughCloseBody rest).map (fun seg => c :: seg)

/-- Model of `errorBody.match(/<body>(.*?)<\/body>/i)`, returning the
full match (`htmlBody[0]`).  The JS `.` does not match a newline; this
model matches across every character — each concrete input in this
development is a single line, where the two coincide.  Once the first
case-insensitive `<body>` is found, the lazy `(.*?)` takes the match to
the first following `</body>`; if the first `<body>` has no closing tag
then no later one has either, so the whole regex fails. -/
def findBodySegment : List Char → Option (List Char)
  | [] => none
  | c :: rest =>
    if (matchCI openBodyPat (c :: rest)).isSome then
      (takeThroughCloseBody (List.drop 6 (c :: rest))).map
        (fun seg => List.take 6 (c :: rest) ++ seg)
    else
      findBodySegment rest

/-- After a `<` that is not followed directly by `>`: drop up to and
including the next `>`, returning the remainder (`none` when no `>`
follows).  Together with `stripTags` this realises the `[^>]+` part of
the tag regex. -/
def splitTag : List Char → Option (List Char)
  | [] => none
  | '>' :: _ => none
  | _ :: rest => dropToGt rest
where
  dropToGt : List Char → Option (List Char)
    | [] => none
    | '>' :: rest => some rest
    | _ :: rest => dropToGt rest

/-- Model of `.replace(/(<([^>]+)>)/ig, ' ')`: every `<...>` tag with a
non-empty, `>`-free inside becomes a single space; a `<` that starts no
such tag is kept. -/
def stripTags : Nat → List Char → List Char
  | 0, cs => cs
  | fuel + 1, cs =>
    match cs with
    | [] => []
    | '<' :: rest =>
      (match splitTag rest with
       | some rest2 => ' ' :: stripTags fuel rest2
       | none => '<' :: stripTags fuel rest)
    | c :: rest => c :: stripTags fuel rest

/-- JS `\s` on the characters occurring here. -/
def isWsChar (c : Char) : Bool :=
  c = ' ' ∨ c = '\t' ∨ c = '\n' ∨ c = '\r'

/-- Drop a leading whitespace run. -/
def dropWsRun : List Char → List Char
  | c :: rest => if isWsChar c then dropWsRun rest else c :: rest
  | [] => []

/-- Model of `.replace(/\s\s+/g, ' ')`: every run of two or more
whitespace characters becomes one space; a lone whitespace character is
kept verbatim. -/
def collapseWs : Nat → List Char → List Char
  | 0, cs => cs
  | fuel + 1, cs =>
    match cs with
    | [] => []
    | c :: rest =>
      if isWsChar c then
        (match rest with
         | c2 :: _ =>
           if isWsChar c2 then ' ' :: collapseWs fuel (dropWsRun rest)
           else c :: collapseWs fuel rest
         | [] => [c])
      else c :: collapseWs fuel rest

/-- The string-body fallback of `createHubspotError`: when the body has
a (case-insensitive) `<body>...</body>` section, replace the body string
by that section with tags stripped and whitespace runs collapsed;
otherwise leave it unchanged. -/
def stripHtmlBody (s : String) : String :=
  match findBodySegment s.toList with
  | some seg =>
    String.mk (collapseWs (stripTags seg.length seg).length (stripTags seg.length seg))
  | none => s

/-- The raw `errorBody` argument of `helpers.createHubspotError`: a JS
string, a `Buffer`, or an already-parsed JS value (the `parsedResponse`
passed from `processResponseBody`). -/
inductive EBody where
  | str (s : String) : EBody
  | buf (s : String) : EBody
  | val (j : Json) : EBody

/-- The `errorBody` as a plain JS value (used when it flows into
`message`). -/
def ebodyToJsVal : EBody → JsVal
  | .str s => .json (.str s)
  | .buf s => .buffer s
  | .val j => .json j

/-- First phase of `createHubspotError` (helpers.js lines 49-66): the
`typeof`-dispatch that computes `errorBodyJSON` and possibly rewrites
`errorBody`.

* string: `JSON.parse` under `try`; on failure the body is replaced by
  its tag-stripped `<body>` section when one exists;
* `Buffer`: `JSON.parse(errorBody.toString())` **outside** any `try` —
  a body that is not valid JSON throws a `SyntaxError` out of the
  function;
* other values: `typeof` is `'object'` for `null`, arrays and objects
  (giving `errorBodyJSON = errorBody`), and neither branch runs for
  numbers and booleans; a string value reaching this argument takes the
  string branch. -/
def chStep1 : EBody → Except JsException (JsVal × EBody)
  | .str s =>
    (match jsonParse s with
     | some j => .ok (.json j, .str s)
     | none => .ok (.undefined, .str (stripHtmlBody s)))
  | .buf s =>
    (match jsonParse s with
     | some j => .ok (.json j, .buf s)
     | none => .error .syntaxError)
  | .val j =>
    match j with
    | .str s =>
      (match jsonParse s with
       | some j2 => .ok (.json j2, .val (.str (s)))
       | none => .ok (.undefined, .val (.str (stripHtmlBody s))))
    | .num n => .ok (.undefined, .val (.num n))
    | .bool b => .ok (.undefined, .val (.bool b))
    | j => .ok (.json j, .val j)

/-- The normalized error built by `createHubspotError`.  `code` and
`statusCode` are `none` exactly when `if (code)` skipped them;
`requestId` is `none` exactly when `if (requestId)` skipped it. -/
structure HubspotError where
  message : JsVal
  status : JsVal
  code : Option Nat
  statusCode : Option Nat
  requestId : Option JsVal

mutual

/-- `String(j)` on a JSON value.  The array and object cases are crude
(`join(",")` without the `null`-to-empty rule, `"[object Object]"`); no
claim is evaluated on them. -/
def jsonStringOf : Json → String
  | .null => "null"
  | .bool b => if b then "true" else "false"
  | .num n => toString n
  | .str s => s
  | .arr xs => String.intercalate "," (jsonStringOfList xs)
  | .obj _ => "[object Object]"

/-- `String(..)` of each element of a list of JSON values. -/
def jsonStringOfList : List Json → List String
  | [] => []
  | x :: xs => jsonStringOf x :: jsonStringOfList xs

end

/-- `String(v)` as used by the `Error` constructor on the values that
occur here. -/
def jsStringOf : JsVal → String
  | .undefined => "undefined"
  | .buffer s => s
  | .json j => jsonStringOf j

/-- Second phase of `createHubspotError` (helpers.js lines 68-91): read
the `requestId`/`message`/`status`/`error`/`error_description` fields
through the `&&`/`||` chains, build the `Error` (whose constructor
coerces a defined message with `String(...)`), then apply the `code`,
`requestId` and `error_description` conditionals in source order. -/
def chFinish (ebj : JsVal) (eb : EBody) (code : Nat) : HubspotError :=
  let requestId := jsAnd ebj (jsGet ebj "requestId")
  let message := jsOr (jsAnd ebj (jsGet ebj "message")) (ebodyToJsVal eb)
  let status := jsAnd ebj (jsGet ebj "status")
  let errorType := jsAnd ebj (jsGet ebj "error")
  let errorDescription := jsAnd ebj (jsGet ebj "error_description")
  let storedMessage : JsVal :=
    match message with
    | .undefined => .undefined
    | v => .json (.str (jsStringOf v))
  let base : HubspotError :=
    { message := storedMessage
      status := status
      code := if code = 0 then none else some code
      statusCode := if code = 0 then none else some code
      requestId := if jsvalTruthy requestId then some requestId else none }
  if jsvalTruthy errorDescription then
    { base with message := errorDescription, status := errorType }
  else base

/-- `helpers.createHubspotError(errorBody, code)`.  The `Except.error`
case is the `SyntaxError` escaping from the unguarded `JSON.parse` of a
`Buffer` body. -/
def createHubspotError (errorBody : EBody) (code : Nat) :
    Except JsException HubspotError :=
  match chStep1 errorBody with
  | .error ex => .error ex
  | .ok (ebj, eb) => .ok (chFinish ebj eb code)

/-! ### `processResponseBody` (hubspot.js lines 163-183) -/

/-- The response body as it reaches `processResponseBody`: the gunzip
path hands over a string, the plain path hands over the raw `Buffer`
(`request` is configured with `encoding: null`). -/
inductive RawBody where
  | str (s : String) : RawBody
  | buf (s : String) : RawBody

/-- `JSON.parse` coerces its argument to a string; both body forms
expose their text. -/
def bodyText : RawBody → String
  | .str s => s
  | .buf s => s

/-- The body as `createHubspotError` receives it on the
`isAnError(statusCode)` path. -/
def toEBody : RawBody → EBody
  | .str s => .str s
  | .buf s => .buf s

/-- One outcome of `processResponseBody`: an exception escaping the
response callback, `callback(error)` with a normalized error,
`callback(new Error('Error parsing JSON answer from hubspot API.'))`,
or `callback(null, parsedResponse)`. -/
inductive ProcOutcome where
  | thrown (e : JsException) : ProcOutcome
  | err (e : HubspotError) : ProcOutcome
  | parseErr : ProcOutcome
  | ok (v : Json) : ProcOutcome

/-- `parsedResponse.status === "error"`. -/
def jsvalIsStrError (v : JsVal) : Bool :=
  match v with
  | .json (.str s) => s = "error"
  | _ => false

/-- Continuation of `processResponseBody` after the parse `try`/`catch`
(hubspot.js lines 178-182): the unguarded `parsedResponse.status`
access, the in-band error test, and the success callback. -/
def afterParse (statusCode : Nat) (j : Json) : ProcOutcome :=
  match jsMember j "status" with
  | .error ex => .thrown ex
  | .ok v =>
    if jsvalIsStrError v || isAnError statusCode then
      match createHubspotError (.val j) statusCode with
      | .ok e => .err e
      | .error ex => .thrown ex
    else .ok j

/-- `processResponseBody(statusCode, body, callback)`:
* an error status goes straight to `createHubspotError` with the raw
  body;
* otherwise the body is parsed; on parse failure a non-204 status
  reports the parse error while a 204 continues with the initial
  `parsedResponse = {}`;
* the parsed value then flows through `afterParse`. -/
def processResponseBody (statusCode : Nat) (body : RawBody) : ProcOutcome :=
  if isAnError statusCode then
    match createHubspotError (toEBody body) statusCode with
    | .ok e => .err e
    | .error ex => .thrown ex
  else
    match jsonParse (bodyText body) with
    | none =>
      if statusCode ≠ 204 then .parseErr
      else afterParse statusCode (Json.obj [])
    | some j => afterParse statusCode j

/-! ### The client constructor and the request-construction phase of
`execute` (hubspot.js lines 14-44 and 60-129) -/

/-- JS truthiness of an option/field holding a string (`undefined` and
`""` are falsy). -/
def strTruthy : Option String → Bool
  | some s => s != ""
  | none => false

/-- `value || default` on a string-valued option. -/
def orDefault (o : Option String) (d : String) : String :=
  match o with
  | some s => if s = "" then d else s
  | none => d

/-- The recognized constructor options (fields absent from the options
object are `none`). -/
structure Options where
  api_key : Option String := none
  access_token : Option String := none
  DEBUG : Bool := false
  contentType : Option String := none
  userAgent : Option String := none

/-- A constructed client instance.  A field never assigned by the
constructor stays `undefined`, modelled as `none`. -/
structure Client where
  api_key : Option String
  access_token : Option String
  httpUri : String
  DEBUG : Bool
  contentType : String
  userAgent : String

/-- The constructor `hubspotAPI(options)`: requires one of
`api_key`/`access_token`; when `api_key` is truthy the oauth token is
ignored, otherwise `access_token` is stored. -/
def hubspotAPI (options : Options) : Except String Client :=
  if ¬ strTruthy options.api_key ∧ ¬ strTruthy options.access_token then
    .error "API requires api_key or access_token"
  else if strTruthy options.api_key then
    .ok { api_key := options.api_key
          access_token := none
          httpUri := "https://api.hubapi.com"
          DEBUG := options.DEBUG
          contentType := orDefault options.contentType "application/json"
          userAgent := orDefault options.userAgent "node-hubspot" }
  else
    .ok { api_key := none
          access_token := options.access_token
          httpUri := "https://api.hubapi.com"
          DEBUG := options.DEBUG
          contentType := orDefault options.contentType "application/json"
          userAgent := orDefault options.userAgent "node-hubspot" }

/-- The first argument of `execute`: either a verb string or an object
`{verb: ..., json: ...}` (used by `postJson`). -/
inductive VerbParams where
  | str (s : String) : VerbParams
  | obj (verb : String) (json : Bool) : VerbParams

/-- `verbParams && verbParams.verb || verbParams` for the two shapes
that occur. -/
def verbOf : VerbParams → String
  | .str s => s
  | .obj v _ => v

/-- The `requestOptions` object handed to `request(...)` (plus the
`uri` assigned at line 125).  `encoding: null` is what makes plain
response bodies arrive as `Buffer`s.  Note there is no query-string
field: `execute` never attaches `finalParams` to a GET/DELETE/PUT/PATCH
request. -/
structure RequestOptions where
  method : String
  headers : List (String × String)
  uri : String
  form : Option (List (String × Json))
  json : Option (List (String × Json))

/-- The headers built at hubspot.js lines 67-71. -/
def baseHeaders (c : Client) : List (String × String) :=
  [("Content-Type", c.contentType),
   ("User-Agent", c.userAgent),
   ("Accept-Encoding", "gzip, deflate")]

/-- The whitelisting loop of `execute` (hubspot.js lines 83-87): copy
into `finalParams` exactly the `availableParams` entries that are
defined in `givenParams`. -/
def filterParams (availableParams : List String)
    (givenParams : List (String × Json)) : List (String × Json) :=
  availableParams.foldl
    (fun acc p =>
      match lookupKV givenParams p with
      | some v => setField acc p v
      | none => acc)
    []

/-- Authentication application to the query parameters (hubspot.js
lines 94-96): `if (this.api_key) finalParams.hapikey = this.api_key`. -/
def applyAuthParams (c : Client) (fp : List (String × Json)) :
    List (String × Json) :=
  if strTruthy c.api_key then setField fp "hapikey" (Json.str (c.api_key.getD ""))
  else fp

/-- Authentication application to the headers (hubspot.js lines 98-100):
`if (this.access_token) headers.Authorization = "Bearer " + token`. -/
def applyAuthHeaders (c : Client) (hs : List (String × String)) :
    List (String × String) :=
  if strTruthy c.access_token then
    hs ++ [("Authorization", "Bearer " ++ c.access_token.getD "")]
  else hs

/-- The synchronous request-construction phase of
`hubspotAPI.prototype.execute` (hubspot.js lines 60-129); the response
side is `processResponseBody` above.

The `POST` branch (lines 109-123) first builds an unused `properties`
array and stores `finalParams` under `requestOptions.form` or
`requestOptions.json`, then evaluates `qs.stringify(authParams)` —
`authParams` is declared nowhere in the file, so reading it throws a
`ReferenceError` before `request(...)` runs; the partially built
options object is discarded with the throw.

For every other verb the authenticated `finalParams` are computed but
never attached to `requestOptions`: the issued request carries the bare
`uri` and no parameters. -/
def execute (c : Client) (verbParams : VerbParams) (path : String)
    (availableParams : List String) (givenParams : List (String × Json)) :
    Except JsException RequestOptions :=
  let verb := verbOf verbParams
  let uri := c.httpUri ++ "/" ++ path
  let finalParams := filterParams availableParams givenParams
  let _authedParams := applyAuthParams c finalParams
  let headers := applyAuthHeaders c (baseHeaders c)
  if verb = "POST" then
    Except.error JsException.referenceError
  else
    Except.ok { method := verb, headers := headers, uri := uri,
                form := none, json := none }

/-- `hubspotAPI.prototype.post`. -/
def post (c : Client) (path : String) (availableParams : List String)
    (givenParams : List (String × Json)) : Except JsException RequestOptions :=
  execute c (VerbParams.str "POST") path availableParams givenParams

/-- `hubspotAPI.prototype.postJson`. -/
def postJson (c : Client) (path : String) (availableParams : List String)
    (givenParams : List (String × Json)) : Except JsException RequestOptions :=
  execute c (VerbParams.obj "POST" true) path availableParams givenParams

/-- `hubspotAPI.prototype.get`. -/
def get (c : Client) (path : String) (availableParams : List String)
    (givenParams : List (String × Json)) : Except JsException RequestOptions :=
  execute c (VerbParams.str "GET") path availableParams givenParams

/-- `hubspotAPI.prototype.refresh` (hubspot.js lines 554-568): force
`grant_type = "refresh_token"` into the params and `post` to the fixed
refresh path. -/
def refresh (c : Client) (params : List (String × Json)) :
    Except JsException RequestOptions :=
  post c "auth/v1/refresh" ["refresh_token", "client_id", "grant_type"]
    (setField params "grant_type" (Json.str "refresh_token"))

/-- `hubspotAPI.prototype.event_completions` (hubspot.js lines
216-223). -/
def event_completions (c : Client) (params : List (String × Json)) :
    Except JsException RequestOptions :=
  post c "analytics/v2/event/completions/total" ["offset"] params

/-! ### The OAuth refresh-and-retry flow

Modelled from the spec: the retry wiring
(`createOrUpdateTimelineEvent` calling `refreshAccessToken` on a 401
and retrying once) is code of this repository that is not under `src/`
— only its test appears there — so the flow is modelled from §4.3 of
the specification as the three-state machine
{Idle, AwaitingRefresh, Retrying} with a hard cap of one retry. -/

/-- An operation failure carrying the HTTP status that caused it. -/
structure OpError where
  statusCode : Nat
  msg : String

/-- The environment of one flow run: the result of the original
operation under the current token, the result of the token refresh, and
the result of the single retry under the new token. -/
structure FlowConfig where
  firstResult : Except OpError Json
  refreshResult : Except OpError (String × String)
  retryResult : Except OpError Json

/-- The control state of the flow. -/
inductive FlowPhase where
  | idle : FlowPhase
  | awaitingRefresh : FlowPhase
  | retrying : FlowPhase
  | done (r : Except OpError Json) : FlowPhase

/-- The flow state: control phase, the client's in-memory tokens, and
instrumentation counting operation and refresh invocations. -/
structure FlowState where
  phase : FlowPhase
  accessToken : String
  refreshToken : String
  opCalls : Nat
  refreshCalls : Nat

/-- The starting state for a call made with the given tokens. -/
def flowInit (a0 r0 : String) : FlowState :=
  { phase := .idle, accessToken := a0, refreshToken := r0,
    opCalls := 0, refreshCalls := 0 }

/-- One transition of the flow:
* `idle` issues the operation; a non-401 outcome is final, a 401 moves
  to `awaitingRefresh`;
* `awaitingRefresh` issues the refresh; failure is surfaced as the
  final outcome, success replaces both tokens and moves to `retrying`;
* `retrying` issues the operation once more and its outcome — success
  or failure — is final;
* `done` is absorbing. -/
def flowStep (cfg : FlowConfig) (s : FlowState) : FlowState :=
  match s.phase with
  | .idle =>
    (match cfg.firstResult with
     | .ok v => { s with phase := .done (.ok v), opCalls := s.opCalls + 1 }
     | .error e =>
       if e.statusCode = 401 then
         { s with phase := .awaitingRefresh, opCalls := s.opCalls + 1 }
       else
         { s with phase := .done (.error e), opCalls := s.opCalls + 1 })
  | .awaitingRefresh =>
    (match cfg.refreshResult with
     | .error e =>
       { s with phase := .done (.error e), refreshCalls := s.refreshCalls + 1 }
     | .ok p =>
       { s with phase := .retrying, accessToken := p.1, refreshToken := p.2,
                refreshCalls := s.refreshCalls + 1 })
  | .retrying =>
    { s with phase := .done cfg.retryResult, opCalls := s.opCalls + 1 }
  | .done _ => s

/-- The outcome §4.3 prescribes for a call whose first attempt was
rejected with 401: a refresh failure is surfaced as-is, otherwise the
retry's outcome — success or failure — is surfaced as-is. -/
def flowOutcome (cfg : FlowConfig) : Except OpError Json :=
  match cfg.refreshResult with
  | .error e => .error e
  | .ok _ => cfg.retryResult

/-! ### Concrete fixtures used by closed theorems -/

/-- `parsedResponse.status === "error"`, as a predicate on the parsed
body (false when the access would not even be a string comparison). -/
def hasErrorMarker (j : Json) : Bool :=
  match jsMember j "status" with
  | .ok v => jsvalIsStrError v
  | .error _ => false

/-- A client constructed in oauth mode (`access_token: "tok"`). -/
def tokenClient : Client :=
  { api_key := none
    access_token := some "tok"
    httpUri := "https://api.hubapi.com"
    DEBUG := false
    contentType := "application/json"
    userAgent := "node-hubspot" }

/-- Options supplying both credentials. -/
def bothOptions : Options :=
  { api_key := some "K", access_token := some "T" }

/-- The client that `hubspotAPI bothOptions` constructs: `api_key`
wins, the oauth token is ignored. -/
def keyClient : Client :=
  { api_key := some "K"
    access_token := none
    httpUri := "https://api.hubapi.com"
    DEBUG := false
    contentType := "application/json"
    userAgent := "node-hubspot" }

/-- The refresh-flow environment of the repository's own test: the
first attempt fails with 401, the refresh yields tokens
`("T2", "R2")`, and the retried operation succeeds. -/
def retryConfig : FlowConfig :=
  { firstResult := Except.error { statusCode := 401, msg := "The access token is expired or invalid" }
    refreshResult := Except.ok ("T2", "R2")
    retryResult := Except.ok (Json.obj [("success", Json.str "OK")]) }

/-- A JSON error body carrying `message`, `status` and `requestId`. -/
def roundtripBody : String :=
  "\x7b\"message\":\"Bad\",\"status\":\"err\",\"requestId\":\"R1\"\x7d"

end Hubspot

/-! ## Theorems -/

namespace Hubspot

theorem isAnError_eq_false {c : Nat} (h : c / 100 = 2) : isAnError c = false := by
  simp [isAnError, h]

theorem isAnError_in_2xx {c : Nat} (h1 : 200 ≤ c) (h2 : c ≤ 299) :
    isAnError c = false :=
  isAnError_eq_false (by omega)

theorem jsMember_ne_null (j : Json) (k : String) (hn : j ≠ Json.null) :
    ∃ v, jsMember j k = Except.ok v := by
  cases j with
  | null => exact absurd rfl hn
  | bool b => exact ⟨_, rfl⟩
  | num n => exact ⟨_, rfl⟩
  | str s => exact ⟨_, rfl⟩
  | arr xs => exact ⟨_, rfl⟩
  | obj fields => exact ⟨_, rfl⟩

theorem afterParse_eq (c : Nat) (j : Json) (hn : j ≠ Json.null) :
    afterParse c j =
      if hasErrorMarker j || isAnError c then
        (match createHubspotError (.val j) c with
         | .ok e => ProcOutcome.err e
         | .error ex => ProcOutcome.thrown ex)
      else ProcOutcome.ok j := by
  obtain ⟨v, hv⟩ := jsMember_ne_null j "status" hn
  unfold afterParse hasErrorMarker
  rw [hv]

theorem hasErrorMarker_obj {j : Json} (hm : hasErrorMarker j = true) :
    ∃ fields, j = Json.obj fields := by
  cases j with
  | obj fields => exact ⟨fields, rfl⟩
  | _ => simp_all [hasErrorMarker, jsMember, jsvalIsStrError]

theorem createHubspotError_obj (fields : List (String × Json)) (c : Nat) :
    createHubspotError (.val (Json.obj fields)) c =
      Except.ok (chFinish (.json (Json.obj fields)) (.val (Json.obj fields)) c) :=
  rfl

/-- C10: for every client, path, whitelist and parameter bag, `execute`
with verb `POST` — and hence `post`, `postJson`, and the catalog
methods built on them (`refresh`, `event_completions`) — fails with the
`ReferenceError` thrown by reading the undeclared `authParams`, before
any request is built and before the completion callback could run. -/
theorem execute_post_reference_error (c : Client) (path : String)
    (aps : List String) (gps : List (String × Json)) (b : Bool) :
    execute c (VerbParams.str "POST") path aps gps
        = Except.error JsException.referenceError
    ∧ execute c (VerbParams.obj "POST" b) path aps gps
        = Except.error JsException.referenceError
    ∧ post c path aps gps = Except.error JsException.referenceError
    ∧ postJson c path aps gps = Except.error JsException.referenceError
    ∧ refresh c gps = Except.error JsException.referenceError
    ∧ event_completions c gps = Except.error JsException.referenceError :=
  ⟨rfl, rfl, rfl, rfl, rfl, rfl⟩

/-- C2 (failing input): a 404 response whose body is a `Buffer` holding
the plain text `"Not Found"` does not fail with an `ApiError` — the
unguarded `JSON.parse` of the `Buffer` inside `createHubspotError`
throws a `SyntaxError`, so the callback is never invoked. -/
theorem non2xx_buffer_body_throws :
    processResponseBody 404 (RawBody.buf "Not Found")
      = ProcOutcome.thrown JsException.syntaxError :=
  rfl

/-- C7 (failing input): `createHubspotError` is not total — on a
`Buffer` body whose content is the HTML error page, the `Buffer` branch
runs `JSON.parse` outside any `try` and throws a `SyntaxError` instead
of degrading to a best-effort message. -/
theorem createHubspotError_buffer_throws :
    createHubspotError
        (EBody.buf "<html><body>Internal Server Error</body></html>") 500
      = Except.error JsException.syntaxError :=
  rfl

/-- C4 (failing input): a GET call with the array-valued whitelisted
parameter `email = ["a@x.com", "b@x.com"]` issues a request whose `uri`
carries no query string at all and whose options carry no parameter
field — `finalParams` is computed and then dropped, so no
`email=a@x.com&email=b@x.com` serialization ever happens. -/
theorem get_array_params_dropped :
    execute tokenClient (VerbParams.str "GET")
        "contacts/v1/lists/all/contacts/all" ["email"]
        [("email", Json.arr [Json.str "a@x.com", Json.str "b@x.com"])]
      = Except.ok
          { method := "GET"
            headers := [("Content-Type", "application/json"),
                        ("User-Agent", "node-hubspot"),
                        ("Accept-Encoding", "gzip, deflate"),
                        ("Authorization", "Bearer tok")]
            uri := "https://api.hubapi.com/contacts/v1/lists/all/contacts/all"
            form := none
            json := none } :=
  rfl

/-- C1 (counterexample): a 200 response whose body is the JSON text
`"null"` parses successfully and carries no `status: "error"` marker,
yet the call does not succeed with the parsed value — the unguarded
`parsedResponse.status` access throws a `TypeError`. -/
theorem status200_null_body_throws :
    jsonParse (bodyText (RawBody.str "null")) = some Json.null
    ∧ processResponseBody 200 (RawBody.str "null")
        = ProcOutcome.thrown JsException.typeError :=
  ⟨rfl, rfl⟩

/-- C5 (counterexample): the parameter bag contains the key `foo`, but
the whitelist loop inside `execute` drops it — `finalParams` is empty,
so `foo` is not forwarded anywhere. -/
theorem filterParams_drops_unlisted :
    filterParams ["bar"] [("foo", Json.num 1)] = [] :=
  rfl

/-- C9 (counterexample): the body `"<div>oops</div>"` is a string that
fails JSON parsing, yet the resulting message is the raw text with its
HTML tags intact — tags are only stripped when the text contains a
`<body>...</body>` section. -/
theorem message_keeps_tags_without_body_section :
    createHubspotError (EBody.str "<div>oops</div>") 500
      = Except.ok
          { message := JsVal.json (Json.str "<div>oops</div>")
            status := JsVal.undefined
            code := some 500
            statusCode := some 500
            requestId := none } :=
  rfl

/-- C1 (amended): for every 2xx response whose body parses as JSON to a
value other than `null`, the call succeeds with exactly the parsed
value iff the parsed body does not carry a `status === "error"` marker;
with the marker it fails with the `ApiError` that `createHubspotError`
builds from the parsed body.  (A body parsing to `null` instead throws
a `TypeError`.) -/
theorem success_iff_no_inband_error (c : Nat) (b : RawBody) (j : Json)
    (h1 : 200 ≤ c) (h2 : c ≤ 299)
    (hp : jsonParse (bodyText b) = some j) (hn : j ≠ Json.null) :
    (hasErrorMarker j = false → processResponseBody c b = ProcOutcome.ok j)
    ∧ (hasErrorMarker j = true →
        ∃ e, createHubspotError (EBody.val j) c = Except.ok e
          ∧ processResponseBody c b = ProcOutcome.err e) := by
  have hae : isAnError c = false := isAnError_in_2xx h1 h2
  have hproc : processResponseBody c b = afterParse c j := by
    simp [processResponseBody, hae, hp]
  constructor
  · intro hm
    rw [hproc, afterParse_eq c j hn, hm, hae]
    simp
  · intro hm
    obtain ⟨fields, rfl⟩ := hasErrorMarker_obj hm
    refine ⟨chFinish (.json (Json.obj fields)) (.val (Json.obj fields)) c,
            createHubspotError_obj fields c, ?_⟩
    rw [hproc, afterParse_eq c _ hn, hm]
    simp [createHubspotError_obj]

/-- C1 witness: a 200 response with body `{"ok":1}` succeeds with the
parsed object, and one with body
`{"status":"error","message":"boom"}` fails with the error built from
that body. -/
theorem success_iff_no_inband_error_witness :
    processResponseBody 200 (RawBody.str "\x7b\"ok\":1\x7d")
        = ProcOutcome.ok (Json.obj [("ok", Json.num 1)])
    ∧ ∃ e, createHubspotError
          (EBody.val (Json.obj [("status", Json.str "error"), ("message", Json.str "boom")])) 200
            = Except.ok e
        ∧ processResponseBody 200 (RawBody.str "\x7b\"status\":\"error\",\"message\":\"boom\"\x7d")
            = ProcOutcome.err e := by
  refine ⟨?_, ?_⟩
  · exact (success_iff_no_inband_error 200 (RawBody.str "\x7b\"ok\":1\x7d")
      (Json.obj [("ok", Json.num 1)]) (by decide) (by decide) rfl
      (fun h => Json.noConfusion h)).1 rfl
  · exact (success_iff_no_inband_error 200
      (RawBody.str "\x7b\"status\":\"error\",\"message\":\"boom\"\x7d")
      (Json.obj [("status", Json.str "error"), ("message", Json.str "boom")])
      (by decide) (by decide) rfl (fun h => Json.noConfusion h)).2 rfl

/-- C8: for every body that does not parse as JSON, a 204 response
succeeds with the (empty) initial `parsedResponse = {}`, while every
other 2xx status reports the JSON parse error. -/
theorem status204_empty_body_ok (b : RawBody)
    (hp : jsonParse (bodyText b) = none) :
    processResponseBody 204 b = ProcOutcome.ok (Json.obj [])
    ∧ ∀ c : Nat, 200 ≤ c → c ≤ 299 → c ≠ 204 →
        processResponseBody c b = ProcOutcome.parseErr := by
  constructor
  · have hae : isAnError 204 = false := isAnError_eq_false (by norm_num)
    simp [processResponseBody, hae, hp, afterParse, jsMember, lookupKV,
          jsvalIsStrError]
  · intro c h1 h2 h3
    have hae : isAnError c = false := isAnError_in_2xx h1 h2
    simp [processResponseBody, hae, hp, h3]

/-- C8 witness: a 204 response with the empty body succeeds with `{}`;
a 200 response with the empty body fails to parse. -/
theorem status204_empty_body_ok_witness :
    processResponseBody 204 (RawBody.str "") = ProcOutcome.ok (Json.obj [])
    ∧ processResponseBody 200 (RawBody.str "") = ProcOutcome.parseErr := by
  have h := status204_empty_body_ok (RawBody.str "") rfl
  exact ⟨h.1, h.2 200 (by decide) (by decide) (by decide)⟩

theorem lookupKV_setField (fs : List (String × Json)) (k k' : String)
    (v : Json) :
    lookupKV (setField fs k v) k' = if k = k' then some v else lookupKV fs k' := by
  induction fs with
  | nil => simp [setField, lookupKV]
  | cons hd tl ih =>
    obtain ⟨a, b⟩ := hd
    by_cases hak : a = k
    · subst hak
      by_cases hk' : a = k' <;> simp [setField, lookupKV, hk']
    · by_cases hk' : a = k'
      · subst hk'
        have : ¬ k = a := fun h => hak h.symm
        simp [setField, lookupKV, hak, this]
      · simp [setField, lookupKV, hak, hk', ih]

theorem lookupKV_filterAux (gps : List (String × Json)) (aps : List String)
    (acc : List (String × Json)) (k : String) :
    lookupKV
        (aps.foldl
          (fun acc p =>
            match lookupKV gps p with
            | some v => setField acc p v
            | none => acc)
          acc) k
      = if k ∈ aps ∧ (lookupKV gps k).isSome then lookupKV gps k
        else lookupKV acc k := by
  induction aps generalizing acc with
  | nil => simp
  | cons p rest ih =>
    rw [List.foldl_cons, ih]
    by_cases hsome : (lookupKV gps k).isSome
    · by_cases hk : k = p
      · subst hk
        by_cases hin : k ∈ rest
        · rw [if_pos ⟨hin, hsome⟩, if_pos ⟨List.mem_cons_self k rest, hsome⟩]
        · rw [if_neg (fun h => hin h.1),
              if_pos ⟨List.mem_cons_self k rest, hsome⟩]
          obtain ⟨v, hv⟩ := Option.isSome_iff_exists.mp hsome
          simp only [hv]
          rw [lookupKV_setField]
          simp [hv]
      · by_cases hin : k ∈ rest
        · rw [if_pos ⟨hin, hsome⟩,
              if_pos ⟨List.mem_cons_of_mem p hin, hsome⟩]
        · rw [if_neg (fun h => hin h.1)]
          have hout : ¬ (k ∈ p :: rest ∧ (lookupKV gps k).isSome = true) := by
            rintro ⟨hin2, _⟩
            rcases List.mem_cons.mp hin2 with h | h
            · exact hk h
            · exact hin h
          rw [if_neg hout]
          cases hgps : lookupKV gps p with
          | none => simp only [hgps]
          | some v =>
            simp only [hgps]
            rw [lookupKV_setField]
            rw [if_neg (fun h => hk h.symm)]
    · rw [if_neg (fun h => hsome h.2), if_neg (fun h => hsome h.2)]
      cases hgps : lookupKV gps p with
      | none => simp only [hgps]
      | some v =>
        simp only [hgps]
        rw [lookupKV_setField]
        have hpk : ¬ p = k := by
          intro h
          subst h
          rw [hgps] at hsome
          exact hsome rfl
        rw [if_neg hpk]

/-- C5 (amended): the Executor itself applies the whitelist — for every
whitelist, parameter bag and key, the `finalParams` computed by
`execute`'s filtering loop bind the key to the bag's value exactly when
the key is whitelisted, and drop it otherwise. -/
theorem filterParams_whitelists (aps : List String)
    (gps : List (String × Json)) (k : String) :
    lookupKV (filterParams aps gps) k
      = if k ∈ aps then lookupKV gps k else none := by
  unfold filterParams
  rw [lookupKV_filterAux]
  by_cases hmem : k ∈ aps
  · cases hgps : lookupKV gps k with
    | none => simp [hmem, hgps, lookupKV]
    | some v => simp [hmem, hgps]
  · simp [hmem, lookupKV]

theorem lookupKV_append_none {α : Type} (hs : List (String × α)) (k : String)
    (v : α) (h : lookupKV hs k = none) :
    lookupKV (hs ++ [(k, v)]) k = some v := by
  induction hs with
  | nil => simp [lookupKV]
  | cons hd tl ih =>
    obtain ⟨a, b⟩ := hd
    by_cases hak : a = k
    · simp [lookupKV, hak] at h
    · simp [lookupKV, hak] at h ⊢
      exact ih h

/-- C6: a constructed client never holds both credentials (`api_key`
wins when the options supply both), and the authentication application
step of `execute` adds exactly one of the `hapikey` query parameter or
the `Authorization` header — never both. -/
theorem auth_mutually_exclusive (opts : Options) (c : Client)
    (h : hubspotAPI opts = Except.ok c)
    (fp : List (String × Json)) (hs : List (String × String))
    (hfp : lookupKV fp "hapikey" = none)
    (hhs : lookupKV hs "Authorization" = none) :
    ((strTruthy c.api_key && strTruthy c.access_token) = false)
    ∧ (strTruthy opts.api_key = true →
        c.api_key = opts.api_key ∧ c.access_token = none)
    ∧ Xor' (lookupKV (applyAuthParams c fp) "hapikey" ≠ none)
           (lookupKV (applyAuthHeaders c hs) "Authorization" ≠ none) := by
  unfold hubspotAPI at h
  by_cases hnone : ¬ strTruthy opts.api_key ∧ ¬ strTruthy opts.access_token
  · simp [hnone] at h
  · rw [if_neg hnone] at h
    by_cases hkey : strTruthy opts.api_key
    · rw [if_pos hkey] at h
      injection h with h
      subst h
      refine ⟨by simp [strTruthy], fun _ => ⟨rfl, rfl⟩, Or.inl ⟨?_, ?_⟩⟩
      · simp [applyAuthParams, hkey, lookupKV_setField]
      · simp [applyAuthHeaders, strTruthy, hhs]
    · rw [if_neg hkey] at h
      injection h with h
      subst h
      have htok : strTruthy opts.access_token := by
        rcases not_and_or.mp hnone with h' | h'
        · exact absurd (not_not.mp h') hkey
        · exact not_not.mp h'
      refine ⟨by simp [strTruthy], fun hk => absurd hk hkey,
              Or.inr ⟨?_, ?_⟩⟩
      · simp [applyAuthHeaders, htok, lookupKV_append_none hs _ _ hhs]
      · simp [applyAuthParams, strTruthy, hfp]

/-- C6 witness: options supplying both `api_key = "K"` and
`access_token = "T"` construct `keyClient`, which holds only the api
key, and the auth step on fresh params/headers adds `hapikey` and not
`Authorization`. -/
theorem auth_mutually_exclusive_witness :
    ((strTruthy keyClient.api_key && strTruthy keyClient.access_token) = false)
    ∧ (strTruthy bothOptions.api_key = true →
        keyClient.api_key = bothOptions.api_key
          ∧ keyClient.access_token = none)
    ∧ Xor' (lookupKV (applyAuthParams keyClient []) "hapikey" ≠ none)
           (lookupKV (applyAuthHeaders keyClient ([] : List (String × String)))
              "Authorization" ≠ none) :=
  auth_mutually_exclusive bothOptions keyClient rfl [] [] rfl rfl

/-- C9 (amended): when the body is the JSON serialization of an object
with a non-empty string `message`, any `status`, a non-empty string
`requestId` and no `error_description`, normalization recovers the
three fields onto the error; when the body is a string failing JSON
parse, the message is the opaque text — tag-stripped exactly when it
contains a `<body>...</body>` section, verbatim otherwise. -/
theorem createHubspotError_roundtrip :
    (∀ (s : String) (fields : List (String × Json)) (c : Nat) (st : Json)
        (ms rs : String),
      jsonParse s = some (Json.obj fields) →
      lookupKV fields "message" = some (Json.str ms) → ms ≠ "" →
      lookupKV fields "status" = some st →
      lookupKV fields "requestId" = some (Json.str rs) → rs ≠ "" →
      lookupKV fields "error_description" = none →
      ∃ e, createHubspotError (EBody.str s) c = Except.ok e
        ∧ e.message = JsVal.json (Json.str ms)
        ∧ e.status = JsVal.json st
        ∧ e.requestId = some (JsVal.json (Json.str rs)))
    ∧ (∀ (s : String) (c : Nat),
      jsonParse s = none →
      ∃ e, createHubspotError (EBody.str s) c = Except.ok e
        ∧ e.message = JsVal.json (Json.str (stripHtmlBody s))) := by
  constructor
  · intro s fields c st ms rs hp hm hmne hst hr hrne hed
    have he : createHubspotError (EBody.str s) c
        = Except.ok (chFinish (.json (Json.obj fields)) (.str s) c) := by
      simp only [createHubspotError, chStep1, hp]
    refine ⟨_, he, ?_, ?_, ?_⟩
    · simp [chFinish, jsAnd, jsOr, jsGet, jsvalTruthy, jsonTruthy,
            hm, hed, bne_iff_ne, hmne, jsStringOf, jsonStringOf]
    · simp [chFinish, jsAnd, jsOr, jsGet, jsvalTruthy, jsonTruthy,
            hst, hed]
    · simp [chFinish, jsAnd, jsGet, jsvalTruthy, jsonTruthy,
            hr, hed, bne_iff_ne, hrne]
  · intro s c hp
    have he : createHubspotError (EBody.str s) c
        = Except.ok (chFinish .undefined (.str (stripHtmlBody s)) c) := by
      simp only [createHubspotError, chStep1, hp]
    refine ⟨_, he, ?_⟩
    simp [chFinish, jsAnd, jsOr, jsGet, jsvalTruthy, ebodyToJsVal,
          jsStringOf, jsonStringOf]

/-- C9 witness: the serialized body
`{"message":"Bad","status":"err","requestId":"R1"}` is normalized with
those three fields recovered; the unparsable body
`"<body>Server Error</body>"` yields the tag-stripped message
`" Server Error "`. -/
theorem createHubspotError_roundtrip_witness :
    (∃ e, createHubspotError (EBody.str roundtripBody) 400 = Except.ok e
      ∧ e.message = JsVal.json (Json.str "Bad")
      ∧ e.status = JsVal.json (Json.str "err")
      ∧ e.requestId = some (JsVal.json (Json.str "R1")))
    ∧ (∃ e, createHubspotError (EBody.str "<body>Server Error</body>") 500
          = Except.ok e
      ∧ e.message = JsVal.json (Json.str " Server Error ")) := by
  constructor
  · exact createHubspotError_roundtrip.1 roundtripBody
      [("message", Json.str "Bad"), ("status", Json.str "err"),
       ("requestId", Json.str "R1")]
      400 (Json.str "err") "Bad" "R1" rfl rfl (by decide) rfl rfl (by decide) rfl
  · exact createHubspotError_roundtrip.2 "<body>Server Error</body>" 500 rfl

/-- C3 (spec-modelled): a call first rejected with 401 drives the flow
`Idle → AwaitingRefresh → (Retrying) → Done` with at most two operation
invocations and at most one refresh; a refresh failure — or a failure
of the single retry — is surfaced as the final outcome; on refresh
success the stored access token is replaced; and the machine is stable
after three steps, so the flow never loops or recurses. -/
theorem refresh_retry_flow (cfg : FlowConfig) (a0 r0 : String) (e : OpError)
    (h1 : cfg.firstResult = Except.error e) (h2 : e.statusCode = 401) :
    ((flowStep cfg)^[3] (flowInit a0 r0)).phase = FlowPhase.done (flowOutcome cfg)
    ∧ ((flowStep cfg)^[3] (flowInit a0 r0)).opCalls ≤ 2
    ∧ ((flowStep cfg)^[3] (flowInit a0 r0)).refreshCalls ≤ 1
    ∧ ((flowStep cfg)^[3] (flowInit a0 r0)).accessToken
        = (match cfg.refreshResult with
           | .ok p => p.1
           | .error _ => a0)
    ∧ ∀ n : Nat, (flowStep cfg)^[3 + n] (flowInit a0 r0)
        = (flowStep cfg)^[3] (flowInit a0 r0) := by
  have s1 : flowStep cfg (flowInit a0 r0)
      = { phase := .awaitingRefresh, accessToken := a0, refreshToken := r0,
          opCalls := 1, refreshCalls := 0 } := by
    simp [flowStep, flowInit, h1, h2]
  rcases hr : cfg.refreshResult with e2 | p
  · have hfinal : (flowStep cfg)^[3] (flowInit a0 r0)
        = { phase := .done (.error e2), accessToken := a0, refreshToken := r0,
            opCalls := 1, refreshCalls := 1 } := by
      show flowStep cfg (flowStep cfg (flowStep cfg (flowInit a0 r0))) = _
      rw [s1]
      simp [flowStep, hr]
    refine ⟨?_, ?_, ?_, ?_, ?_⟩
    · rw [hfinal]; simp [flowOutcome, hr]
    · rw [hfinal]; exact Nat.le_succ 1
    · rw [hfinal]
    · rw [hfinal]
    · intro n
      induction n with
      | zero => rfl
      | succ n ihn =>
        show (flowStep cfg)^[(3 + n) + 1] (flowInit a0 r0) = _
        rw [Function.iterate_succ_apply', ihn, hfinal]
        simp [flowStep]
  · have hfinal : (flowStep cfg)^[3] (flowInit a0 r0)
        = { phase := .done cfg.retryResult, accessToken := p.1,
            refreshToken := p.2, opCalls := 2, refreshCalls := 1 } := by
      show flowStep cfg (flowStep cfg (flowStep cfg (flowInit a0 r0))) = _
      rw [s1]
      simp [flowStep, hr]
    refine ⟨?_, ?_, ?_, ?_, ?_⟩
    · rw [hfinal]; simp [flowOutcome, hr]
    · rw [hfinal]
    · rw [hfinal]
    · rw [hfinal]
    · intro n
      induction n with
      | zero => rfl
      | succ n ihn =>
        show (flowStep cfg)^[(3 + n) + 1] (flowInit a0 r0) = _
        rw [Function.iterate_succ_apply', ihn, hfinal]
        simp [flowStep]

/-- C3 witness: with the environment of the repository's own test (401,
then refresh to `("T2","R2")`, then a successful retry) the flow ends
`done` with the retry's success, after two operation calls, one
refresh, and with the stored token now `"T2"`. -/
theorem refresh_retry_flow_witness :
    ((flowStep retryConfig)^[3] (flowInit "T1" "R1")).phase
        = FlowPhase.done (Except.ok (Json.obj [("success", Json.str "OK")]))
    ∧ ((flowStep retryConfig)^[3] (flowInit "T1" "R1")).opCalls ≤ 2
    ∧ ((flowStep retryConfig)^[3] (flowInit "T1" "R1")).refreshCalls ≤ 1
    ∧ ((flowStep retryConfig)^[3] (flowInit "T1" "R1")).accessToken = "T2" := by
  have h := refresh_retry_flow retryConfig "T1" "R1"
      { statusCode := 401, msg := "The access token is expired or invalid" }
      rfl rfl
  exact ⟨h.1, h.2.1, h.2.2.1, h.2.2.2.1⟩

end Hubspot
